import Mathlib

/-!
Verification development for the s3store storage module (s3storage.go).

The module implements the certmagic storage interface over Amazon S3:
a CRUD facade (Store, Load, Delete, List, Stat, Exists), a key mapper
(Filename, lockFileName), and a polling lock protocol (Lock, Unlock,
createLockFile, deleteLockFile, fileLockIsStale).

We embed the code at two levels:
* a reply-level model, where every S3 call gets its answer from an
  adversarial environment trace (this captures backend faults and
  concurrent interference), used for the lock-loop claims; and
* a sequential fault-free state model, where the bucket is an explicit
  association list from object path to object, used for the claims about
  the state left behind by the operations.

Durations follow Go time.Duration and are measured in nanoseconds, as
integers over Nat.  Go compares signed durations; every comparison the
code makes has the shape d > c with c > 0, and time.Since(start) is
never negative for the monotonic start stamp, so truncated Nat
subtraction gives the same Boolean on every comparison.
-/

/-! ## Go path model (path/filepath on Linux)

filepath.FromSlash is the identity on Linux.  filepath.Join joins the
non-empty elements with a slash and applies filepath.Clean.  goClean
below is Clean for slash-separated paths: collapse repeated slashes,
drop "." elements, resolve ".." against a preceding element, keep
leading ".." elements of relative paths, drop ".." at the root of
rooted paths; an emptied relative path becomes ".".
-/

/-- Split a character list into the slash-separated segments.  The
second argument accumulates the characters of the segment being read,
most recent first. -/
def splitSlashAux : List Char → List Char → List (List Char)
  | [], cur => [cur.reverse]
  | c :: cs, cur =>
    if c = '/' then cur.reverse :: splitSlashAux cs []
    else splitSlashAux cs (c :: cur)

/-- One step of lexical cleaning: process one path segment against the
stack of kept segments (most recent first). -/
def cleanStep (rooted : Bool) (acc : List (List Char)) (seg : List Char) : List (List Char) :=
  if seg = [] || seg = ['.'] then acc
  else if seg = ['.', '.'] then
    match acc with
    | [] => if rooted then [] else [['.', '.']]
    | a :: rest => if a = ['.', '.'] then seg :: acc else rest
  else seg :: acc

/-- Go filepath.Clean for slash-separated (Linux) paths, implemented
over the underlying character list so that it evaluates by kernel
reduction. -/
def goClean (p : String) : String :=
  if p = "" then "."
  else
    let cs := p.data
    let rooted : Bool := cs.head? = some '/'
    let segs := (splitSlashAux cs []).foldl (cleanStep rooted) []
    let body := List.intercalate ['/'] segs.reverse
    if rooted then String.mk ('/' :: body)
    else if body = [] then "." else String.mk body

/-- Go filepath.Join on two elements: join the non-empty elements with a
slash, then Clean; all elements empty gives the empty string. -/
def goJoin (a b : String) : String :=
  if a = "" then (if b = "" then "" else goClean b)
  else goClean (a ++ "/" ++ b)

/-! ## Constants from s3storage.go -/

/-- staleLockDuration = 2 * time.Hour, in nanoseconds. -/
def staleLockDuration : Nat := 2 * 3600 * 1000000000

/-- fileLockPollInterval = 1 * time.Second, in nanoseconds. -/
def fileLockPollInterval : Nat := 1000000000

/-- The root storage path set by both constructors (field S3Store.pfx,
named prefix in the source). -/
def rootPfx : String := "certmagic"

/-- Filename returns the key joined onto the root path:
filepath.Join(s.pfx, filepath.FromSlash(key)), FromSlash = id on Linux. -/
def Filename (key : String) : String :=
  goJoin rootPfx key

/-- lockDir = filepath.Join(s.pfx, "locks"). -/
def lockDir : String :=
  goJoin rootPfx "locks"

/-- lockFileName = filepath.Join(s.lockDir(), StorageKeys.Safe(key)+".lock").
StorageKeys.Safe comes from the external certmagic library, consumed here
as an opaque sanitizer argument. -/
def lockFileName (safe : String → String) (key : String) : String :=
  goJoin lockDir (safe key ++ ".lock")

/-! ## Sequential fault-free backend state

The bucket is an association list from object path to object.  S3
object attributes the code consumes: body bytes (size = length) and
the last-modified stamp.  Per the backend contract, a single put or
delete is atomic at object granularity, a delete of an absent object
succeeds, and a get of an absent object reports the not-found error.
-/

/-- An S3 object: body bytes (as a string) and last-modified stamp. -/
structure S3Obj where
  body : String
  modified : Nat
  deriving Repr, DecidableEq

/-- The bucket: association list, first binding for a path wins. -/
abbrev Bucket := List (String × S3Obj)

/-- GetObject in the fault-free model: none encodes the NoSuchKey reply. -/
def getObject (b : Bucket) (path : String) : Option S3Obj :=
  match b.find? (fun e => e.1 = path) with
  | some e => some e.2
  | none => none

/-- DeleteObject: removes every binding at the path; succeeds on an
absent path (S3 DeleteObject does not fail for missing keys). -/
def deleteObject (b : Bucket) (path : String) : Bucket :=
  (b : List (String × S3Obj)).filter (fun e => !(e.1 = path : Bool))

/-- PutObject: unconditional overwrite of the object at the path. -/
def putObject (b : Bucket) (path : String) (body : String) (now : Nat) : Bucket :=
  (path, ⟨body, now⟩) :: deleteObject b path

/-- The keys present in the bucket, in bucket order. -/
def bucketKeys (b : Bucket) : List String :=
  (b : List (String × S3Obj)).map Prod.fst

/-! ## GetObject replies and the Exists method

Exists issues GetObject at Filename(key) and computes its Boolean from
the error: nil error gives true, a NoSuchKey error gives false, and
any other error e gives !errors.As(e, &nsk) = true.
-/

/-- The reply to one GetObject call, as far as the code inspects it. -/
inductive GetReply where
  | found
  | noSuchKey
  | ioErr
  deriving Repr, DecidableEq

/-- The Boolean Exists computes from its GetObject reply: err == nil
gives true, otherwise the result is !errors.As(err, &nsk). -/
def existsOf : GetReply → Bool
  | .found => true
  | .noSuchKey => false
  | .ioErr => true

/-- Derive the GetObject reply from the bucket, with an optional
injected transient fault standing for any non-NoSuchKey error. -/
def getReply (b : Bucket) (fault : Bool) (path : String) : GetReply :=
  if fault then .ioErr
  else
    match getObject b path with
    | some _ => .found
    | none => .noSuchKey

/-- Exists: GetObject at Filename(key), then the error test above. -/
def ExistsS (b : Bucket) (fault : Bool) (key : String) : Bool :=
  existsOf (getReply b fault (Filename key))

/-! ## The fault-free CRUD facade -/

/-- Store saves value at key: PutObject at Filename(key). -/
def Store (b : Bucket) (key value : String) (now : Nat) : Bucket :=
  putObject b (Filename key) value now

/-- Load retrieves the value at key: GetObject at Filename(key). -/
def Load (b : Bucket) (key : String) : Option String :=
  (getObject b (Filename key)).map S3Obj.body

/-- Delete removes the value at key: DeleteObject at Filename(key). -/
def Delete (b : Bucket) (key : String) : Bucket :=
  deleteObject b (Filename key)

/-- The certmagic KeyInfo record returned by Stat. -/
structure KeyInfo where
  key : String
  size : Nat
  modified : Nat
  isTerminal : Bool
  deriving Repr, DecidableEq

/-- Stat issues GetObject at the raw key argument: the source fills
GetObjectInput.Key with key itself, not with Filename(key).  On
success it packages the key together with ContentLength and
LastModified and IsTerminal = true. -/
def Stat (b : Bucket) (key : String) : Option KeyInfo :=
  (getObject b key).map fun o => ⟨key, o.body.length, o.modified, true⟩

/-- strings.HasPrefix, over the character lists. -/
def hasPfx (s p : String) : Bool :=
  p.data.isPrefixOf s.data

/-- The backend ListObjects call with the given Prefix: the flat,
complete list of bucket keys whose path has that string as a prefix. -/
def listObjects (b : Bucket) (p : String) : List String :=
  (bucketKeys b).filter (fun k => hasPfx k p)

/-- List: resolve the argument through Filename, call ListObjects with
the resolved path as Prefix, and keep the returned keys that have the
raw unresolved argument as a string prefix.  The recursive flag is
received and never read. -/
def ListS (b : Bucket) (p : String) (recursive : Bool) : List String :=
  (listObjects b (Filename p)).filter (fun k => hasPfx k p)

/-! ## The lock protocol -/

/-- fileLockIsStale: time.Since(info.Modified) > staleLockDuration. -/
def fileLockIsStale (now : Nat) (info : KeyInfo) : Bool :=
  staleLockDuration < now - info.modified

/-- The outcomes of one Lock call.  The first four are the returns the
source can take: nil, the two fmt.Errorf wrappers, and the possible-
deadlock error.  cancelledErr is the CancelledError of the spec error
taxonomy; it is part of the outcome type so that claims about
cancellation can be stated. -/
inductive LockResult where
  | acquired
  | fatalCreate
  | fatalStat
  | deadlock
  | cancelledErr
  deriving Repr, DecidableEq

/-- The reply to the PutObject issued by createLockFile. -/
inductive PutReply where
  | ok
  | ioErr
  deriving Repr, DecidableEq

/-- What createLockFile returns, as Lock distinguishes it: nil, the
fixed "Lock file for already exists" error, or any other error. -/
inductive CreateRes where
  | created
  | lockExists
  | createErr
  deriving Repr, DecidableEq

/-- createLockFile at the reply level: Exists on the marker path first
(whose GetObject reply is e), and only when that says false, PutObject
of the sentinel body "lock". -/
def createLockFileR (e : GetReply) (p : PutReply) : CreateRes :=
  if existsOf e then .lockExists
  else
    match p with
    | .ok => .created
    | .ioErr => .createErr

/-- The reply to the GetObject issued by Stat on the marker path. -/
inductive StatReply where
  | ok (info : KeyInfo)
  | noSuchKey
  | ioErr
  deriving Repr, DecidableEq

/-- The environment input consumed by one iteration of the Lock loop:
the wall clock at the iteration, the replies to the backend calls the
iteration may issue, and whether the best-effort delete of a stale
marker succeeds (the source ignores that error either way). -/
structure Iter where
  now : Nat
  exGet : GetReply
  put : PutReply
  statR : StatReply
  delOk : Bool
  deriving Repr, DecidableEq

/-- What one iteration of the Lock loop does: finish with a result, or
run again after deleting the marker or not and after sleeping the
given number of nanoseconds. -/
inductive StepRes where
  | done (r : LockResult)
  | retry (deleted : Bool) (sleptNs : Nat)
  deriving Repr, DecidableEq

/-- One iteration of the Lock loop body, following the switch of the
source: createLockFile, then on the lockFileExists error a Stat of the
marker, then the errNoSuchKey / error / stale / elapsed / default
cases in that order. -/
def lockStep (start : Nat) (it : Iter) : StepRes :=
  match createLockFileR it.exGet it.put with
  | .created => .done .acquired
  | .createErr => .done .fatalCreate
  | .lockExists =>
    match it.statR with
    | .noSuchKey => .retry false 0
    | .ioErr => .done .fatalStat
    | .ok info =>
      if fileLockIsStale it.now info then .retry true 0
      else if staleLockDuration * 2 < it.now - start then .done .deadlock
      else .retry false fileLockPollInterval

/-- Lock: the polling loop, one environment Iter per iteration.  The
context is carried exactly as in the source signature, as the
cancellation status over time; the source never reads ctx inside the
loop, so it appears in no right-hand side.  none means the loop was
still running when the trace ran out. -/
def Lock (ctxCancelled : Nat → Bool) (start : Nat) : List Iter → Option LockResult
  | [] => none
  | it :: rest =>
    match lockStep start it with
    | .done r => some r
    | .retry _ _ => Lock ctxCancelled start rest

/-! ## The lock protocol over the fault-free sequential bucket -/

/-- createLockFile over the fault-free bucket: s.Exists(filename) on
the full marker path (the Exists method resolves its argument through
Filename again), and when that says false, PutObject of the sentinel
body "lock" at the marker path.  none encodes the fixed error
"Lock file for already exists". -/
def createLockFileB (b : Bucket) (now : Nat) (filename : String) : Option Bucket :=
  if ExistsS b false filename then none
  else some (putObject b filename "lock" now)

/-- Lock over the fault-free sequential bucket, with the wall clock of
each iteration supplied by the times list.  none means the loop was
still running when the list ran out. -/
def LockB (start : Nat) (b : Bucket) (lockFile : String) : List Nat → Option (LockResult × Bucket)
  | [] => none
  | now :: rest =>
    match createLockFileB b now lockFile with
    | some b2 => some (.acquired, b2)
    | none =>
      match Stat b lockFile with
      | none => LockB start b lockFile rest
      | some info =>
        if fileLockIsStale now info then LockB start (deleteObject b lockFile) lockFile rest
        else if staleLockDuration * 2 < now - start then some (.deadlock, b)
        else LockB start b lockFile rest

/-- deleteLockFile: DeleteObject at the given path, propagating its
error; in the fault-free backend the call returns no error, also for
an absent object, so the Boolean ok flag is always true. -/
def deleteLockFile (b : Bucket) (keyPath : String) : Bucket × Bool :=
  (deleteObject b keyPath, true)

/-- Unlock releases the lock: deleteLockFile at lockFileName(key). -/
def Unlock (b : Bucket) (safe : String → String) (key : String) : Bucket × Bool :=
  deleteLockFile b (lockFileName safe key)

/-- An iteration that observes the marker present (createLockFile says
it exists) and whose Stat reply carries a fresh, non-stale stamp. -/
def freshFound (it : Iter) : Bool :=
  existsOf it.exGet &&
    match it.statR with
    | .ok info => !(fileLockIsStale it.now info)
    | _ => false

/-- An iteration that observes the marker present at the createLockFile
step but then finds it missing at the Stat step, or finds it stale. -/
def statGone (it : Iter) : Bool :=
  existsOf it.exGet &&
    match it.statR with
    | .noSuchKey => true
    | .ok info => fileLockIsStale it.now info
    | .ioErr => false

/-! ## Helper lemmas about the bucket -/

theorem getObject_putObject_self (b : Bucket) (p v : String) (t : Nat) :
    getObject (putObject b p v t) p = some ⟨v, t⟩ := by
  simp [getObject, putObject, List.find?]

theorem getObject_deleteObject_self (b : Bucket) (p : String) :
    getObject (deleteObject b p) p = none := by
  induction b with
  | nil => rfl
  | cons e rest ih =>
    by_cases h : e.1 = p
    · simpa [deleteObject, List.filter_cons, h] using ih
    · simpa [deleteObject, List.filter_cons, h, getObject, List.find?_cons, h] using ih

/-- lockStep can never finish with the CancelledError outcome: no
branch of the loop body produces it. -/
theorem lockStep_ne_cancelled (start : Nat) (it : Iter) :
    lockStep start it ≠ StepRes.done LockResult.cancelledErr := by
  rcases it with ⟨now, e, p, st, d⟩
  cases e <;> cases p <;> cases st <;>
    simp [lockStep, createLockFileR, existsOf] <;> split_ifs <;> simp

/-! ## Claims -/

/-- C1, counterexample: take key "k", an empty bucket (no object is
present at the resolved resource path) and a backend reply that is an
error other than not-found.  The claim requires Exists to return
false; the code returns true. -/
theorem c1_counterexample :
    getObject ([] : Bucket) (Filename "k") = none
    ∧ ExistsS ([] : Bucket) true "k" = true := by
  exact ⟨rfl, rfl⟩

/-- C1, amended: Exists consults the resolved resource path and
returns false exactly when that GetObject reports not-found.  With no
fault it is true iff an object is present at Filename(key); under any
backend error other than not-found it returns true, treating the
error as existence rather than non-existence. -/
theorem c1_exists_error_is_existence :
    ∀ (b : Bucket) (fault : Bool) (key : String),
      ExistsS b false key = (getObject b (Filename key)).isSome
      ∧ ExistsS b true key = true
      ∧ (ExistsS b fault key = false
          ↔ getReply b fault (Filename key) = GetReply.noSuchKey) := by
  intro b fault key
  refine ⟨?_, rfl, ?_⟩
  · unfold ExistsS getReply
    cases h : getObject b (Filename key) <;> simp [existsOf]
  · unfold ExistsS getReply
    cases fault
    · cases h : getObject b (Filename key) <;> simp [existsOf]
    · simp [existsOf]

/-- C2, counterexample: a context cancelled from the very start, and a
run that polls once on a fresh marker and then acquires.  The claim
requires the run to stop with CancelledError at the poll boundary; the
code, which never reads the context, returns ok. -/
theorem c2_counterexample :
    Lock (fun _ => true) 0
      [⟨5000000000, GetReply.found, PutReply.ok,
          StatReply.ok ⟨"certmagic/locks/k.lock", 4, 4000000000, true⟩, true⟩,
       ⟨6000000000, GetReply.noSuchKey, PutReply.ok, StatReply.noSuchKey, true⟩]
      = some LockResult.acquired := by
  decide

/-- C2, amended: Lock never reads its context: the result is the same
under every cancellation history, and CancelledError is never
returned, so cancellation neither aborts the loop nor causes any
marker deletion. -/
theorem c2_ctx_ignored :
    ∀ (c c2 : Nat → Bool) (start : Nat) (trace : List Iter),
      Lock c start trace = Lock c2 start trace
      ∧ Lock c start trace ≠ some LockResult.cancelledErr := by
  intro c c2 start trace
  induction trace with
  | nil => exact ⟨rfl, by simp [Lock]⟩
  | cons it rest ih =>
    cases h : lockStep start it with
    | done r =>
      refine ⟨by simp [Lock, h], ?_⟩
      have hr : r ≠ LockResult.cancelledErr := by
        intro hEq
        exact lockStep_ne_cancelled start it (hEq ▸ h)
      simp [Lock, h, hr]
    | retry d sl =>
      exact ⟨by simpa [Lock, h] using ih.1, by simpa [Lock, h] using ih.2⟩

/-- C2, witness for the amended claim at a concrete input. -/
theorem c2_witness :
    Lock (fun _ => true) 0 [] = Lock (fun _ => false) 0 []
    ∧ Lock (fun _ => true) 0 [] ≠ some LockResult.cancelledErr :=
  c2_ctx_ignored (fun _ => true) (fun _ => false) 0 []

/-- C4, counterexample: store a value at key "foo".  Load and Exists
find it at the mapped path Filename "foo" = "certmagic/foo", while
Stat at the very same key consults the raw path "foo" and reports
not-found, so Stat does not consult the storage object the other
operations use for that key. -/
theorem c4_counterexample :
    Load (Store ([] : Bucket) "foo" "v" 7) "foo" = some "v"
    ∧ ExistsS (Store ([] : Bucket) "foo" "v" 7) false "foo" = true
    ∧ Stat (Store ([] : Bucket) "foo" "v" 7) "foo" = none := by
  exact ⟨rfl, rfl, rfl⟩

/-- C4, amended: Stat consults the object stored at the raw key string
itself, not at the key-mapped path: an object just stored under key is
found by Stat only under the resolved name Filename(key), where Stat
reports that name with the object size and last-modified stamp, and
Stat answers not-found exactly when the raw path is absent. -/
theorem c4_stat_raw_path :
    ∀ (b : Bucket) (key value : String) (now : Nat),
      Stat (Store b key value now) (Filename key)
        = some ⟨Filename key, value.length, now, true⟩
      ∧ (Stat b key).isSome = (getObject b key).isSome := by
  intro b key value now
  constructor
  · unfold Stat Store
    rw [getObject_putObject_self]
    rfl
  · unfold Stat
    cases h : getObject b key <;> simp

/-- C5: an iteration that observes the marker at the createLockFile
step and whose Stat reply carries a stamp more than staleLockDuration
in the past deletes the marker and retries at once: the step is a
retry with the delete performed and a zero sleep, whatever the
outcome of the best-effort delete, and no error is returned. -/
theorem c5_stale_reclaim :
    ∀ (start : Nat) (it : Iter) (info : KeyInfo),
      existsOf it.exGet = true →
      it.statR = StatReply.ok info →
      fileLockIsStale it.now info = true →
      lockStep start it = StepRes.retry true 0 := by
  intro start it info h1 h2 h3
  simp [lockStep, createLockFileR, h1, h2, h3]

/-- C5, witness: a stale marker observed through a transient Exists
error, with the best-effort delete itself failing; the step still
deletes and retries immediately. -/
theorem c5_witness :
    lockStep 0
      ⟨8000000000000, GetReply.ioErr, PutReply.ok,
        StatReply.ok ⟨"certmagic/locks/k.lock", 4, 0, true⟩, false⟩
      = StepRes.retry true 0 :=
  c5_stale_reclaim 0 _ ⟨"certmagic/locks/k.lock", 4, 0, true⟩ rfl rfl (by decide)

/-- C7: Unlock returns ok for every bucket, in particular when the
marker is already absent: released twice in a row, or on a key never
locked, both calls return ok, and the marker is absent afterwards. -/
theorem c7_release_idempotent :
    ∀ (b : Bucket) (safe : String → String) (key : String),
      (Unlock b safe key).2 = true
      ∧ (Unlock (Unlock b safe key).1 safe key).2 = true
      ∧ getObject (Unlock b safe key).1 (lockFileName safe key) = none := by
  intro b safe key
  exact ⟨rfl, rfl, getObject_deleteObject_self b (lockFileName safe key)⟩

/-- C8: a key is returned by List exactly when it is a bucket key
carrying both the resolved path Filename(p) and the raw argument p as
string prefixes, and the recursive flag has no effect on the result. -/
theorem c8_list_double_filter :
    ∀ (b : Bucket) (p : String) (recursive : Bool) (k : String),
      (k ∈ ListS b p recursive
        ↔ k ∈ bucketKeys b ∧ (Filename p).data <+: k.data ∧ p.data <+: k.data)
      ∧ ListS b p true = ListS b p false := by
  intro b p recursive k
  constructor
  · simp [ListS, listObjects, List.mem_filter, hasPfx, List.isPrefixOf_iff_prefix]
    tauto
  · rfl

/-- Unpack a freshFound observation into its three components. -/
theorem freshFound_elim (it : Iter) (h : freshFound it = true) :
    existsOf it.exGet = true
    ∧ ∃ info, it.statR = StatReply.ok info ∧ fileLockIsStale it.now info = false := by
  unfold freshFound at h
  cases hst : it.statR with
  | ok info =>
    rw [hst] at h
    simp only [Bool.and_eq_true, Bool.not_eq_true'] at h
    exact ⟨h.1, info, rfl, h.2⟩
  | noSuchKey => rw [hst] at h; simp at h
  | ioErr => rw [hst] at h; simp at h

/-- On a present, fresh marker the loop body reduces to the elapsed-
time guard: past the bound it finishes with the possible-deadlock
error, within the bound it sleeps one poll interval and retries. -/
theorem lockStep_freshFound (start : Nat) (it : Iter) (info : KeyInfo)
    (hex : existsOf it.exGet = true) (hst : it.statR = StatReply.ok info)
    (hfresh : fileLockIsStale it.now info = false) :
    lockStep start it
      = (if staleLockDuration * 2 < it.now - start
          then StepRes.done LockResult.deadlock
          else StepRes.retry false fileLockPollInterval) := by
  simp [lockStep, createLockFileR, hex, hst, hfresh]

/-- An iteration that observes the marker gone again or stale retries
with no sleep and no elapsed-time check. -/
theorem lockStep_statGone (start : Nat) (it : Iter) (h : statGone it = true) :
    ∃ d, lockStep start it = StepRes.retry d 0 := by
  unfold statGone at h
  cases hst : it.statR with
  | ok info =>
    rw [hst] at h
    simp only [Bool.and_eq_true] at h
    exact ⟨true, by simp [lockStep, createLockFileR, h.1, hst, h.2]⟩
  | noSuchKey =>
    rw [hst] at h
    simp only [Bool.and_eq_true] at h
    exact ⟨false, by simp [lockStep, createLockFileR, h.1, hst]⟩
  | ioErr => rw [hst] at h; simp at h

/-- C6: when every iteration of a run observes the marker present and
fresh, and some iteration happens more than twice staleLockDuration
after start, the run returns the possible-deadlock error instead of
continuing to loop. -/
theorem c6_deadlock_guard :
    ∀ (c : Nat → Bool) (start : Nat) (trace : List Iter),
      (∀ it ∈ trace, freshFound it = true) →
      (∃ it ∈ trace, staleLockDuration * 2 < it.now - start) →
      Lock c start trace = some LockResult.deadlock := by
  intro c start trace
  induction trace with
  | nil => intro _ hEx; simp at hEx
  | cons it rest ih =>
    intro hAll hEx
    obtain ⟨hex, info, hst, hfresh⟩ := freshFound_elim it (hAll it (by simp))
    by_cases hg : staleLockDuration * 2 < it.now - start
    · have hstep : lockStep start it = StepRes.done LockResult.deadlock := by
        rw [lockStep_freshFound start it info hex hst hfresh, if_pos hg]
      simp [Lock, hstep]
    · have hstep : lockStep start it = StepRes.retry false fileLockPollInterval := by
        rw [lockStep_freshFound start it info hex hst hfresh, if_neg hg]
      have hEx2 : ∃ x ∈ rest, staleLockDuration * 2 < x.now - start := by
        obtain ⟨x, hx, hxg⟩ := hEx
        rcases List.mem_cons.mp hx with hxe | hxm
        · exact absurd (hxe ▸ hxg) hg
        · exact ⟨x, hxm, hxg⟩
      have hAll2 : ∀ x ∈ rest, freshFound x = true :=
        fun x hx => hAll x (List.mem_cons_of_mem _ hx)
      simpa [Lock, hstep] using ih hAll2 hEx2

/-- C6, witness: a single iteration observing a fresh marker fifteen
trillion nanoseconds after start trips the guard. -/
theorem c6_witness :
    Lock (fun _ => false) 0
      [⟨15000000000000, GetReply.found, PutReply.ok,
          StatReply.ok ⟨"certmagic/locks/k.lock", 4, 14999999000000, true⟩, true⟩]
      = some LockResult.deadlock :=
  c6_deadlock_guard (fun _ => false) 0 _ (by decide) (by decide)

/-- C9: the elapsed-time guard is consulted only on present-and-fresh
iterations.  A run in which every iteration observes the marker gone
again at the Stat step or stale keeps retrying with no sleep and no
result, for traces of any length and any clock values, so the guard
never trips on such a run. -/
theorem c9_guard_skipped :
    ∀ (c : Nat → Bool) (start : Nat) (trace : List Iter),
      (∀ it ∈ trace, statGone it = true) →
      Lock c start trace = none
      ∧ ∀ it ∈ trace, ∃ deleted, lockStep start it = StepRes.retry deleted 0 := by
  intro c start trace
  induction trace with
  | nil => intro _; exact ⟨rfl, by simp⟩
  | cons it rest ih =>
    intro hAll
    obtain ⟨d, hd⟩ := lockStep_statGone start it (hAll it (by simp))
    have ihr := ih (fun x hx => hAll x (List.mem_cons_of_mem _ hx))
    refine ⟨by simpa [Lock, hd] using ihr.1, ?_⟩
    intro x hx
    rcases List.mem_cons.mp hx with hxe | hxm
    · subst hxe; exact ⟨d, hd⟩
    · exact ihr.2 x hxm

/-- C9, witness: two iterations far beyond the two-hour bounds, one
observing the marker gone again, one observing it stale; the loop is
still running and neither step slept nor tripped the guard. -/
theorem c9_witness :
    Lock (fun _ => false) 0
      [⟨100000000000000, GetReply.ioErr, PutReply.ok, StatReply.noSuchKey, true⟩,
       ⟨200000000000000, GetReply.found, PutReply.ok,
          StatReply.ok ⟨"certmagic/locks/k.lock", 4, 0, true⟩, true⟩]
      = none
    ∧ ∀ it ∈
        ([⟨100000000000000, GetReply.ioErr, PutReply.ok, StatReply.noSuchKey, true⟩,
          ⟨200000000000000, GetReply.found, PutReply.ok,
             StatReply.ok ⟨"certmagic/locks/k.lock", 4, 0, true⟩, true⟩] : List Iter),
        ∃ deleted, lockStep 0 it = StepRes.retry deleted 0 :=
  c9_guard_skipped (fun _ => false) 0 _ (by decide)

/-- Whenever the sequential fault-free run of the Lock loop returns ok,
the resulting bucket holds the marker object at the lock path: the
acquired outcome only arises directly after the PutObject of the
sentinel body at that path. -/
theorem lockB_acquired_marker (start : Nat) (lockFile : String) :
    ∀ (times : List Nat) (b b2 : Bucket),
      LockB start b lockFile times = some (LockResult.acquired, b2) →
      (getObject b2 lockFile).isSome = true := by
  intro times
  induction times with
  | nil => intro b b2 h; simp [LockB] at h
  | cons now rest ih =>
    intro b b2 h
    unfold LockB at h
    cases hc : createLockFileB b now lockFile with
    | some b3 =>
      rw [hc] at h
      have hb : b3 = putObject b lockFile "lock" now := by
        unfold createLockFileB at hc
        by_cases he : ExistsS b false lockFile = true
        · rw [if_pos he] at hc; cases hc
        · rw [if_neg he] at hc; exact (Option.some.inj hc).symm
      have h2 : some (LockResult.acquired, b3) = some (LockResult.acquired, b2) := h
      have hb2 : b3 = b2 := congrArg Prod.snd (Option.some.inj h2)
      rw [← hb2, hb, getObject_putObject_self]
      rfl
    | none =>
      rw [hc] at h
      cases hs : Stat b lockFile with
      | none =>
        rw [hs] at h
        exact ih b b2 h
      | some info =>
        rw [hs] at h
        have h2 : (if fileLockIsStale now info
              then LockB start (deleteObject b lockFile) lockFile rest
              else if staleLockDuration * 2 < now - start
                then some (LockResult.deadlock, b)
                else LockB start b lockFile rest)
            = some (LockResult.acquired, b2) := h
        by_cases hstale : fileLockIsStale now info = true
        · rw [if_pos hstale] at h2; exact ih _ b2 h2
        · rw [if_neg hstale] at h2
          by_cases hg : staleLockDuration * 2 < now - start
          · rw [if_pos hg] at h2; simp at h2
          · rw [if_neg hg] at h2; exact ih b b2 h2

/-- C3: in the fault-free sequential model, whenever Lock returns ok
the marker object is present at lockFileName(key) in the resulting
bucket, and immediately after any Unlock of that key the marker object
is absent. -/
theorem c3_marker_lifecycle :
    ∀ (safe : String → String) (key : String) (start : Nat) (b b2 : Bucket)
      (times : List Nat),
      LockB start b (lockFileName safe key) times = some (LockResult.acquired, b2) →
      (getObject b2 (lockFileName safe key)).isSome = true
      ∧ ∀ b3 : Bucket,
          (getObject (Unlock b3 safe key).1 (lockFileName safe key)).isSome = false := by
  intro safe key start b b2 times h
  refine ⟨lockB_acquired_marker start (lockFileName safe key) times b b2 h, ?_⟩
  intro b3
  simp [Unlock, deleteLockFile, getObject_deleteObject_self]

/-- C3, witness: from the empty bucket, one iteration acquires; the
marker is present afterwards and absent again after Unlock. -/
theorem c3_witness :
    (getObject [("certmagic/locks/k.lock", S3Obj.mk "lock" 0)]
        (lockFileName (fun _ => "k") "x")).isSome = true
    ∧ (getObject
        (Unlock [("certmagic/locks/k.lock", S3Obj.mk "lock" 0)] (fun _ => "k") "x").1
        (lockFileName (fun _ => "k") "x")).isSome = false :=
  ⟨(c3_marker_lifecycle (fun _ => "k") "x" 0 []
      [("certmagic/locks/k.lock", S3Obj.mk "lock" 0)] [0] (by decide)).1,
   (c3_marker_lifecycle (fun _ => "k") "x" 0 []
      [("certmagic/locks/k.lock", S3Obj.mk "lock" 0)] [0] (by decide)).2
     [("certmagic/locks/k.lock", S3Obj.mk "lock" 0)]⟩

/-- C10: Filename lexically cleans the joined path, so a key with a
dot-dot segment resolves outside the root namespace: for the key
"../escape" the resolved path is "escape", which does not start with
the root, and Store, Load, Delete and Exists for that key all operate
at that escaped path; keys that stay below the root keep the
"certmagic/" namespace. -/
theorem c10_filename_escape :
    Filename "../escape" = "escape"
    ∧ hasPfx (Filename "../escape") rootPfx = false
    ∧ (∀ (b : Bucket) (v : String) (t : Nat),
        Store b "../escape" v t = putObject b "escape" v t)
    ∧ (∀ b : Bucket, Load b "../escape" = (getObject b "escape").map S3Obj.body)
    ∧ (∀ b : Bucket, Delete b "../escape" = deleteObject b "escape")
    ∧ (∀ (b : Bucket) (fault : Bool),
        ExistsS b fault "../escape" = existsOf (getReply b fault "escape"))
    ∧ Filename "sites/example.com/cert.pem" = "certmagic/sites/example.com/cert.pem"
    ∧ hasPfx (Filename "sites/example.com/cert.pem") (rootPfx ++ "/") = true := by
  have he : Filename "../escape" = "escape" := by decide
  refine ⟨he, by decide, ?_, ?_, ?_, ?_, by decide, by decide⟩
  · intro b v t; unfold Store; rw [he]
  · intro b; unfold Load; rw [he]
  · intro b; unfold Delete; rw [he]
  · intro b fault; unfold ExistsS; rw [he]
